import Mathlib

/-!
Verification of the display-tui monitor layout engine.

Shallow embedding of the monitor data model and operations from
src/monitor.rs and src/map.rs.  Rust i32 values are modelled as Int
(the observed arithmetic stays far from the i32 boundaries), f32/f64
values are modelled as exact rationals, and Rust panics (unwrap/expect)
are modelled by Option with none standing for the panic.
-/

/-- A monitor position in logical coordinates (src/monitor.rs, struct Position). -/
structure Position where
  x : Int
  y : Int
deriving DecidableEq, Repr

/-- A display mode (src/monitor.rs, struct Resolution).  The refresh rate is an
f32 in the source, modelled as an exact rational. -/
structure Resolution where
  width : Int
  height : Int
  refresh : ℚ
  preferred : Bool
  current : Bool
deriving DecidableEq, Repr

/-- A monitor (src/monitor.rs, struct Monitor).  The scale is an f32 in the
source, modelled as an exact rational. -/
structure Monitor where
  name : String
  description : Option String
  enabled : Bool
  modes : List Resolution
  position : Option Position
  scale : Option ℚ
  transform : Option String
  savedPosition : Option Position := none
  savedScale : Option ℚ := none
deriving DecidableEq, Repr

/-- The canvas viewport data (src/monitor.rs, struct MonitorCanvas). -/
structure MonitorCanvas where
  top : Int
  xBounds : ℚ × ℚ
  yBounds : ℚ × ℚ
  offsetY : Int
deriving DecidableEq, Repr

/-- Modelled from the spec: the rotation module (rotation.rs) is declared in
main.rs but its source is not under src/.  Per the spec, a rotation is one of
0, 90, 180, 270 degrees (the optional flip is not used by current logic). -/
inductive Rotation where
  | Deg0
  | Deg90
  | Deg180
  | Deg270
deriving DecidableEq, Repr

/-- Modelled from the spec: rotation.rs is not under src/.  The rotation is
derived from the raw transform descriptor; an absent or unrecognised
descriptor means no rotation. -/
def Rotation.from_transform : Option String → Rotation
  | some s =>
    if s = "90" ∨ s = "flipped-90" then .Deg90
    else if s = "180" ∨ s = "flipped-180" then .Deg180
    else if s = "270" ∨ s = "flipped-270" then .Deg270
    else .Deg0
  | none => .Deg0

/-- Modelled from the spec: rotation.rs is not under src/.  The compositor
specific token for each rotation used in the exported config line. -/
def Rotation.to_hyprland : Rotation → String
  | .Deg0 => "0"
  | .Deg90 => "1"
  | .Deg180 => "2"
  | .Deg270 => "3"

/-- src/monitor.rs, Monitor::get_current_resolution. -/
def Monitor.get_current_resolution (m : Monitor) : Option Resolution :=
  m.modes.find? (fun md => md.current)

/-- src/monitor.rs, Monitor::get_prefered_resolution. -/
def Monitor.get_prefered_resolution (m : Monitor) : Option Resolution :=
  m.modes.find? (fun md => md.preferred)

/-- The current-then-preferred mode fallback that the source repeats inline in
get_monitors_canvas, to_hyprland_config, get_geometry and
render_enabled_monitor. -/
def Monitor.resolve_mode (m : Monitor) : Option Resolution :=
  match m.get_current_resolution with
  | some md => some md
  | none => m.get_prefered_resolution

/-- src/monitor.rs, Monitor::set_current_resolution.  In range: clear the
current flag on every mode, then set it on the selected index.  Out of
range: report and do not mutate. -/
def Monitor.set_current_resolution (m : Monitor) (index : Nat) : Monitor :=
  if h : index < m.modes.length then
    { m with
      modes := (m.modes.map (fun md => { md with current := false })).set index
        { (m.modes.map (fun md => { md with current := false })).get
            ⟨index, by simpa using h⟩ with current := true } }
  else m

/-- src/monitor.rs, Monitor::move_vertical.  A present position gets the step
added to its y component; an absent position means nothing happens. -/
def Monitor.move_vertical (m : Monitor) (direction : Int) : Monitor :=
  match m.position with
  | some p => { m with position := some { p with y := p.y + direction } }
  | none => m

/-- src/monitor.rs, Monitor::move_horizontal. -/
def Monitor.move_horizontal (m : Monitor) (direction : Int) : Monitor :=
  match m.position with
  | some p => { m with position := some { p with x := p.x + direction } }
  | none => m

/-- src/monitor.rs, Monitor::get_geometry.  Returns (x, y, logical width,
logical height).  When no mode resolves it returns (0,0,0,0); when a mode
resolves but the position is absent the source unwraps a None (a panic),
modelled as none. -/
def Monitor.get_geometry (m : Monitor) : Option (ℚ × ℚ × ℚ × ℚ) :=
  match m.resolve_mode with
  | none => some (0, 0, 0, 0)
  | some md =>
    let rotation := Rotation.from_transform m.transform
    let wh : Int × Int :=
      if rotation = .Deg90 ∨ rotation = .Deg270 then (md.height, md.width)
      else (md.width, md.height)
    let scale := m.scale.getD 1
    match m.position with
    | none => none
    | some p =>
      some ((p.x : ℚ), (p.y : ℚ), (wh.1 : ℚ) / scale, (wh.2 : ℚ) / scale)

/-- Truncation toward zero, the behaviour of the Rust `as i32` cast on f64. -/
def ratTruncate (q : ℚ) : Int :=
  if q < 0 then -Int.floor (-q) else Int.floor q

/-- One iteration of the bounding-box loop in
src/monitor.rs, Monitor::get_monitors_canvas.  Disabled monitors are skipped;
for an enabled monitor the source unwraps the resolved mode, the position and
the scale, so any of them being absent is a panic, modelled as none.  The
accumulator is (left, bottom, right, top). -/
def canvasStep (acc : ℚ × ℚ × ℚ × ℚ) (m : Monitor) : Option (ℚ × ℚ × ℚ × ℚ) :=
  if m.enabled = false then some acc
  else
    match m.resolve_mode, m.position, m.scale with
    | some md, some p, some sc =>
      let rotation := Rotation.from_transform m.transform
      let wh : Int × Int :=
        if rotation = .Deg90 ∨ rotation = .Deg270 then (md.height, md.width)
        else (md.width, md.height)
      let monitorLeft : ℚ := p.x
      let monitorRight : ℚ := monitorLeft + (wh.1 : ℚ) / sc
      let monitorBottom : ℚ := p.y
      let monitorTop : ℚ := monitorBottom + (wh.2 : ℚ) / sc
      some (min acc.1 monitorLeft, min acc.2.1 monitorBottom,
            max acc.2.2.1 monitorRight, max acc.2.2.2 monitorTop)
    | _, _, _ => none

/-- src/monitor.rs, Monitor::get_monitors_canvas.  The box is seeded at the
sentinel values 10000 and -10000, folded over the enabled monitors, then expanded
by the fixed margin of 50 on every side. -/
def Monitor.get_monitors_canvas (monitors : List Monitor) : Option MonitorCanvas :=
  match monitors.foldlM canvasStep ((10000 : ℚ), (10000 : ℚ), (-10000 : ℚ), (-10000 : ℚ)) with
  | none => none
  | some lbrt =>
    let margin : ℚ := 50
    let left := lbrt.1 - margin
    let bottom := lbrt.2.1 - margin
    let right := lbrt.2.2.1 + margin
    let top := lbrt.2.2.2 + margin
    let offsetY : ℚ := if bottom < 0 then -bottom else 0
    some { top := ratTruncate top
           xBounds := (left, right)
           yBounds := (bottom, top)
           offsetY := ratTruncate offsetY }

/-- Rust f32 Display for the values this program prints: an integral value
prints with no decimal point, otherwise the integer part, a point and the
(terminating) fraction digits.  f32 values always have terminating decimal
expansions, so 32 digits of fuel always suffice. -/
def fracDigits : ℚ → Nat → List Nat
  | _, 0 => []
  | q, Nat.succ fuel =>
    if q = 0 then []
    else
      let q10 := q * 10
      let d := Int.floor q10
      d.toNat :: fracDigits (q10 - (d : ℚ)) fuel

/-- Rust Display formatting for an f32 value, modelled on the exact rational. -/
def fmtF32 (q : ℚ) : String :=
  let sign := if q < 0 then "-" else ""
  let a := |q|
  let ip : Int := Int.floor a
  let fr := a - (ip : ℚ)
  if fr = 0 then sign ++ toString ip
  else sign ++ toString ip ++ "." ++ String.join ((fracDigits fr 32).map toString)

/-- src/monitor.rs, Monitor::to_hyprland_config.  The mode is resolved
(current, else preferred, else an expect panic modelled as none) before the
enabled flag is consulted; an enabled monitor then unwraps its position. -/
def Monitor.to_hyprland_config (m : Monitor) : Option String :=
  match m.resolve_mode with
  | none => none
  | some mode =>
    if m.enabled then
      match m.position with
      | none => none
      | some p =>
        let rotation := Rotation.from_transform m.transform
        some ("monitor = " ++ m.name ++ ", " ++ toString mode.width ++ "x"
          ++ toString mode.height ++ "@" ++ fmtF32 mode.refresh ++ ", "
          ++ toString p.x ++ "x" ++ toString p.y ++ ", "
          ++ fmtF32 (m.scale.getD 1) ++ ", transform," ++ rotation.to_hyprland)
    else
      some ("monitor = " ++ m.name ++ ", disabled")

/-- Claim C8: set_current_resolution with an in-range index makes exactly the
mode at that index current (all modes otherwise unchanged), and with an
out-of-range index mutates nothing at all. -/
theorem set_current_mode_exclusive (m : Monitor) (index : Nat) :
    (index < m.modes.length →
      ∀ i : Nat, (m.set_current_resolution index).modes[i]? =
        (m.modes[i]?).map (fun md => { md with current := decide (i = index) })) ∧
    (m.modes.length ≤ index → m.set_current_resolution index = m) := by
  constructor
  · intro h i
    unfold Monitor.set_current_resolution
    rw [dif_pos h]
    by_cases hi : i = index
    · subst hi
      rw [List.getElem?_set_self (by simpa using h)]
      rw [List.getElem?_eq_getElem h]
      simp [List.get_eq_getElem]
    · rw [List.getElem?_set_ne (by omega)]
      rw [List.getElem?_map]
      simp [hi]
  · intro h
    unfold Monitor.set_current_resolution
    rw [dif_neg (by omega)]

/-- Witness for C8 at a concrete monitor with two modes. -/
theorem set_current_mode_exclusive_witness :
    (1 < 2) ∧
    ((Monitor.set_current_resolution
        { name := "A", description := none, enabled := true,
          modes :=
            [{ width := 1, height := 1, refresh := 60, preferred := true, current := true },
             { width := 2, height := 2, refresh := 60, preferred := false, current := false }],
          position := none, scale := none, transform := none } 1).modes[0]? =
      some { width := 1, height := 1, refresh := 60, preferred := true, current := false }) := by
  constructor
  · decide
  · have h := (set_current_mode_exclusive
      { name := "A", description := none, enabled := true,
        modes :=
          [{ width := 1, height := 1, refresh := 60, preferred := true, current := true },
           { width := 2, height := 2, refresh := 60, preferred := false, current := false }],
        position := none, scale := none, transform := none } 1).1 (by decide) 0
    simpa using h

/-- Claim C9: free movement by a step d followed by the step -d on the same
axis returns the position exactly to its original value; the operation is
total and consults only the one monitor. -/
theorem free_move_roundtrip (m : Monitor) (p : Position) (d : Int)
    (h : m.position = some p) :
    (m.move_vertical d).move_vertical (-d) = m ∧
    (m.move_horizontal d).move_horizontal (-d) = m := by
  obtain ⟨name, desc, en, modes, pos, sc, tr, sp, ss⟩ := m
  obtain ⟨px, py⟩ := p
  simp only [Monitor.move_vertical, Monitor.move_horizontal] at *
  subst h
  constructor <;> simp

/-- Witness for C9 at a concrete monitor and step. -/
theorem free_move_roundtrip_witness :
    ({ name := "A", description := none, enabled := true, modes := [],
       position := some { x := 3, y := 4 }, scale := none, transform := none,
       savedPosition := none, savedScale := none : Monitor }.position =
        some { x := 3, y := 4 }) ∧
    (({ name := "A", description := none, enabled := true, modes := [],
        position := some { x := 3, y := 4 }, scale := none, transform := none,
        savedPosition := none, savedScale := none : Monitor }.move_vertical 7).move_vertical (-7) =
      { name := "A", description := none, enabled := true, modes := [],
        position := some { x := 3, y := 4 }, scale := none, transform := none,
        savedPosition := none, savedScale := none }) :=
  ⟨rfl, (free_move_roundtrip _ _ 7 rfl).1⟩

/-- Claim C10: moving a monitor whose position is absent is a total silent
no-op on both axes: no panic, every field unchanged. -/
theorem move_without_position_noop (m : Monitor) (d e : Int)
    (h : m.position = none) :
    m.move_vertical d = m ∧ m.move_horizontal e = m := by
  unfold Monitor.move_vertical Monitor.move_horizontal
  rw [h]
  exact ⟨rfl, rfl⟩

/-- Witness for C10 at a concrete monitor with no position. -/
theorem move_without_position_noop_witness :
    ({ name := "B", description := none, enabled := false, modes := [],
       position := none, scale := none, transform := none,
       savedPosition := none, savedScale := none : Monitor }.position = none) ∧
    ({ name := "B", description := none, enabled := false, modes := [],
       position := none, scale := none, transform := none,
       savedPosition := none, savedScale := none : Monitor }.move_vertical 5 =
      { name := "B", description := none, enabled := false, modes := [],
        position := none, scale := none, transform := none,
        savedPosition := none, savedScale := none }) :=
  ⟨rfl, (move_without_position_noop _ 5 0 rfl).1⟩

/-- Record updates that do not touch the mode list leave the resolved mode
unchanged. -/
theorem resolve_mode_scale_irrel (m : Monitor) (s : Option ℚ) :
    Monitor.resolve_mode { m with scale := s } = m.resolve_mode := rfl

/-- The display mode of the concrete monitor mC2. -/
def modeC2 : Resolution :=
  { width := 1920, height := 1080, refresh := 60, preferred := true, current := true }

/-- The position of the concrete monitor mC2. -/
def pC2 : Position := { x := 100, y := 200 }

/-- A concrete enabled monitor used to exhibit the exported line format. -/
def mC2 : Monitor :=
  { name := "DP-1", description := none, enabled := true,
    modes := [modeC2],
    position := some pC2, scale := some 1, transform := none }

/-- Counterexample for claim C2: the exported line separates the position
components with the letter x, not with a comma.  The concrete enabled monitor
mC2 exports a line that differs from the comma-separated form the claim
states. -/
theorem export_line_cex :
    Monitor.to_hyprland_config mC2 =
      some "monitor = DP-1, 1920x1080@60, 100x200, 1, transform,0" ∧
    "monitor = DP-1, 1920x1080@60, 100x200, 1, transform,0" ≠
      "monitor = DP-1, 1920x1080@60, 100,200, 1, transform,0" := by
  constructor
  · norm_num [Monitor.to_hyprland_config, Monitor.resolve_mode,
      Monitor.get_current_resolution, mC2, modeC2, pC2, fmtF32,
      Rotation.from_transform, Rotation.to_hyprland, abs_of_nonneg]
    decide
  · decide

/-- Claim C2 as amended: for every enabled monitor with a resolvable mode, a
position and a scale, the exported line follows the template with the position
components separated by the letter x. -/
theorem export_line_format (m : Monitor) (md : Resolution) (p : Position)
    (hmode : m.resolve_mode = some md) (hen : m.enabled = true)
    (hpos : m.position = some p) :
    m.to_hyprland_config =
      some ("monitor = " ++ m.name ++ ", " ++ toString md.width ++ "x"
        ++ toString md.height ++ "@" ++ fmtF32 md.refresh ++ ", "
        ++ toString p.x ++ "x" ++ toString p.y ++ ", "
        ++ fmtF32 (m.scale.getD 1) ++ ", transform,"
        ++ (Rotation.from_transform m.transform).to_hyprland) := by
  simp [Monitor.to_hyprland_config, hmode, hen, hpos]

/-- Witness for the amended C2 at the concrete monitor mC2. -/
theorem export_line_format_witness :
    mC2.resolve_mode = some modeC2 ∧
    mC2.enabled = true ∧ mC2.position = some pC2 ∧
    mC2.to_hyprland_config =
      some ("monitor = " ++ mC2.name ++ ", " ++ toString modeC2.width ++ "x"
        ++ toString modeC2.height ++ "@" ++ fmtF32 modeC2.refresh ++ ", "
        ++ toString pC2.x ++ "x" ++ toString pC2.y ++ ", "
        ++ fmtF32 (mC2.scale.getD 1) ++ ", transform,"
        ++ (Rotation.from_transform mC2.transform).to_hyprland) :=
  ⟨rfl, rfl, rfl, export_line_format mC2 modeC2 pC2 rfl rfl rfl⟩

/-- A disabled monitor with no modes at all. -/
def mC3 : Monitor :=
  { name := "HDMI-A-1", description := none, enabled := false, modes := [],
    position := none, scale := none, transform := none }

/-- Counterexample for claim C3: the exporter resolves the mode (with an
expect that panics) before it consults the enabled flag, so a disabled monitor
with neither a current nor a preferred mode fails instead of producing the
disabled-marker line. -/
theorem export_disabled_cex :
    Monitor.to_hyprland_config mC3 = none ∧
    (none : Option String) ≠ some "monitor = HDMI-A-1, disabled" := by
  constructor
  · rfl
  · simp

/-- Claim C3 as amended: for every disabled monitor that still has a
resolvable mode, the exporter produces exactly the disabled-marker line; with
no resolvable mode it fails, because the mode is resolved before the enabled
flag is checked. -/
theorem export_disabled_line (m : Monitor) (md : Resolution)
    (hmode : m.resolve_mode = some md) (hen : m.enabled = false) :
    m.to_hyprland_config = some ("monitor = " ++ m.name ++ ", disabled") := by
  simp [Monitor.to_hyprland_config, hmode, hen]

/-- A disabled monitor that keeps a preferred mode. -/
def mC3w : Monitor :=
  { name := "HDMI-A-1", description := none, enabled := false,
    modes := [{ width := 1280, height := 720, refresh := 50,
                preferred := true, current := false }],
    position := none, scale := none, transform := none }

/-- Witness for the amended C3 at the concrete monitor mC3w. -/
theorem export_disabled_line_witness :
    mC3w.resolve_mode =
      some { width := 1280, height := 720, refresh := 50,
             preferred := true, current := false } ∧
    mC3w.enabled = false ∧
    mC3w.to_hyprland_config = some ("monitor = " ++ mC3w.name ++ ", disabled") :=
  ⟨rfl, rfl, export_disabled_line mC3w _ rfl rfl⟩

/-- Counterexample for claim C4: with zero enabled monitors the bounds are the
sentinel box shrunk by the margin, an inverted box from 9950 down to -9950 on
both axes, not the 50-unit margin around the origin. -/
theorem empty_canvas_cex :
    Monitor.get_monitors_canvas [] =
      some { top := -9950, xBounds := (9950, -9950),
             yBounds := (9950, -9950), offsetY := 0 } ∧
    ((9950 : ℚ), (-9950 : ℚ)) ≠ ((-50 : ℚ), (50 : ℚ)) := by
  constructor
  · norm_num [Monitor.get_monitors_canvas, List.foldlM, ratTruncate]
  · norm_num [Prod.ext_iff]

/-- Claim C4 as amended: with zero enabled monitors the canvas computation
does not panic and returns finite bounds, but those bounds are the margin
shrunk sentinel values (x and y from 9950 to -9950, top -9950, offset 0)
rather than a margin around the origin. -/
theorem empty_canvas_bounds :
    Monitor.get_monitors_canvas [] =
      some { top := -9950, xBounds := (9950, -9950),
             yBounds := (9950, -9950), offsetY := 0 } := by
  norm_num [Monitor.get_monitors_canvas, List.foldlM, ratTruncate]

/-- An enabled monitor with a resolvable mode and a position but no scale. -/
def mC5 : Monitor :=
  { name := "eDP-1", description := none, enabled := true,
    modes := [{ width := 1920, height := 1080, refresh := 60,
                preferred := true, current := false }],
    position := some { x := 0, y := 0 }, scale := none, transform := none }

/-- Counterexample for claim C5: the geometry query does default an absent
scale to 1, but the canvas bounds computation unwraps the scale and fails
(panics) on the very same monitor, so the two paths do not both succeed. -/
theorem scale_default_cex :
    mC5.get_geometry = some (0, 0, 1920, 1080) ∧
    Monitor.get_monitors_canvas [mC5] = none := by
  constructor
  · norm_num [Monitor.get_geometry, Monitor.resolve_mode,
      Monitor.get_current_resolution, Monitor.get_prefered_resolution,
      mC5, Rotation.from_transform]
    decide
  · norm_num [Monitor.get_monitors_canvas, List.foldlM, canvasStep,
      Monitor.resolve_mode, Monitor.get_current_resolution,
      Monitor.get_prefered_resolution, mC5]

/-- Claim C5 as amended: with scale absent the per-monitor geometry query
behaves exactly as with scale 1, but the canvas bounds computation fails on
any enabled monitor with an absent scale instead of defaulting it. -/
theorem scale_default_geometry_only (m : Monitor) (hscale : m.scale = none) :
    m.get_geometry = Monitor.get_geometry { m with scale := some 1 } ∧
    (m.enabled = true → Monitor.get_monitors_canvas [m] = none) := by
  obtain ⟨nm, ds, en, mo, po, sc, tr, sp, ss⟩ := m
  simp only [Monitor.scale] at hscale
  subst hscale
  constructor
  · rfl
  · intro hen
    simp only [Monitor.enabled] at hen
    subst hen
    have hstep : canvasStep (10000, 10000, -10000, -10000)
        ⟨nm, ds, true, mo, po, none, tr, sp, ss⟩ = none := by
      cases hr : Monitor.resolve_mode ⟨nm, ds, true, mo, po, none, tr, sp, ss⟩ <;>
        cases po <;> simp [canvasStep, hr]
    simp [Monitor.get_monitors_canvas, List.foldlM, hstep]

/-- Witness for the amended C5 at the concrete monitor mC5. -/
theorem scale_default_geometry_only_witness :
    mC5.scale = none ∧
    mC5.get_geometry = Monitor.get_geometry { mC5 with scale := some 1 } ∧
    (mC5.enabled = true → Monitor.get_monitors_canvas [mC5] = none) :=
  ⟨rfl, (scale_default_geometry_only mC5 rfl).1, (scale_default_geometry_only mC5 rfl).2⟩

/-- Claim C6: with rotation 90 or 270 degrees the geometry query returns the
logical extent with width and height swapped relative to the unrotated case:
logical width is the physical height over the scale and logical height is the
physical width over the scale. -/
theorem rotated_geometry_swap (m : Monitor) (md : Resolution) (p : Position)
    (hmode : m.resolve_mode = some md) (hpos : m.position = some p) :
    ((Rotation.from_transform m.transform = Rotation.Deg90 ∨
      Rotation.from_transform m.transform = Rotation.Deg270) →
      m.get_geometry = some ((p.x : ℚ), (p.y : ℚ),
        (md.height : ℚ) / m.scale.getD 1, (md.width : ℚ) / m.scale.getD 1)) ∧
    ((Rotation.from_transform m.transform = Rotation.Deg0 ∨
      Rotation.from_transform m.transform = Rotation.Deg180) →
      m.get_geometry = some ((p.x : ℚ), (p.y : ℚ),
        (md.width : ℚ) / m.scale.getD 1, (md.height : ℚ) / m.scale.getD 1)) := by
  constructor <;> intro hrot <;> rcases hrot with h | h <;>
    simp [Monitor.get_geometry, hmode, hpos, h]

/-- A rotated monitor used to witness the width and height swap. -/
def mC6 : Monitor :=
  { name := "DP-2", description := none, enabled := true,
    modes := [{ width := 1920, height := 1080, refresh := 60,
                preferred := false, current := true }],
    position := some { x := 10, y := 20 }, scale := some 2,
    transform := some "90" }

/-- Witness for C6 at the concrete rotated monitor mC6. -/
theorem rotated_geometry_swap_witness :
    mC6.resolve_mode =
      some { width := 1920, height := 1080, refresh := 60,
             preferred := false, current := true } ∧
    mC6.position = some { x := 10, y := 20 } ∧
    Rotation.from_transform mC6.transform = Rotation.Deg90 ∧
    mC6.get_geometry = some (10, 20, (1080 : ℚ) / 2, (1920 : ℚ) / 2) := by
  refine ⟨rfl, rfl, rfl, ?_⟩
  have h := (rotated_geometry_swap mC6 _ _ rfl rfl).1 (Or.inl rfl)
  simpa using h

/-- The direction filter of the snap candidate loops (src/map.rs):
a diff passes for direction -1 when it is below -0.1 and for direction +1
when it is above 0.1. -/
def validDir (direction : Int) (diff : ℚ) : Bool :=
  (decide (direction < 0) && decide (diff < -(1/10))) ||
  (decide (0 < direction) && decide ((1/10) < diff))

/-- One step of the best-candidate selection in the snap loops: a valid diff
replaces the current best only when its absolute value is strictly smaller. -/
def betterDelta (direction : Int) (best : Option ℚ) (diff : ℚ) : Option ℚ :=
  if validDir direction diff then
    match best with
    | none => some diff
    | some current => if |diff| < |current| then some diff else some current
  else best

/-- The source-major double loop over sources and targets computing best_delta
in Map::snap_vertical and Map::snap_horizontal. -/
def bestDelta (sources targets : List ℚ) (direction : Int) : Option ℚ :=
  sources.foldl
    (fun acc s => targets.foldl (fun acc t => betterDelta direction acc (t - s)) acc)
    none

/-- Every candidate displacement, in the iteration order of the double loop. -/
def snapDiffs (sources targets : List ℚ) : List ℚ :=
  sources.flatMap (fun s => targets.map (fun t => t - s))

/-- Rust f64::round: round half away from zero. -/
def rustRound (q : ℚ) : Int :=
  if q < 0 then -round (-q) else round q

/-- The target accumulation loop of Map::snap_vertical: every monitor other
than the one at the selected index that is enabled contributes its y, y plus
height and y plus half height; a geometry panic propagates.  The counter i is
the running enumeration index. -/
def snapTargetsAuxV : List Monitor → Nat → Nat → Option (List ℚ)
  | [], _, _ => some []
  | m :: rest, i, selected =>
    if i = selected ∨ m.enabled = false then snapTargetsAuxV rest (i + 1) selected
    else
      match m.get_geometry with
      | none => none
      | some g =>
        (snapTargetsAuxV rest (i + 1) selected).map
          (fun acc => [g.2.1, g.2.1 + g.2.2.2, g.2.1 + g.2.2.2 / 2] ++ acc)

/-- Map::snap_vertical target list: 0.0 followed by the contributions of the
other enabled monitors in order. -/
def snapTargetsV (monitors : List Monitor) (selected : Nat) : Option (List ℚ) :=
  (snapTargetsAuxV monitors 0 selected).map (fun l => (0 : ℚ) :: l)

/-- Map::snap_vertical source list: the selected monitor contributes its y,
y plus height and y plus half height; an out-of-range index or a geometry
panic is a failure. -/
def snapSourcesV (monitors : List Monitor) (selected : Nat) : Option (List ℚ) :=
  match monitors[selected]? with
  | none => none
  | some m =>
    match m.get_geometry with
    | none => none
    | some g => some [g.2.1, g.2.1 + g.2.2.2, g.2.1 + g.2.2.2 / 2]

/-- src/map.rs, Map::snap_vertical: build targets and sources, select the
best delta, and apply it rounded to the selected monitor; when no candidate
is valid nothing moves. -/
def Map.snap_vertical (monitors : List Monitor) (selected : Nat) (direction : Int) :
    Option (List Monitor) :=
  match snapTargetsV monitors selected, snapSourcesV monitors selected,
        monitors[selected]? with
  | some targets, some sources, some m =>
    match bestDelta sources targets direction with
    | none => some monitors
    | some delta =>
      some (monitors.set selected (m.move_vertical (rustRound delta)))
  | _, _, _ => none

/-- The target accumulation loop of Map::snap_horizontal: x, x plus width and
x plus half width of every other enabled monitor. -/
def snapTargetsAuxH : List Monitor → Nat → Nat → Option (List ℚ)
  | [], _, _ => some []
  | m :: rest, i, selected =>
    if i = selected ∨ m.enabled = false then snapTargetsAuxH rest (i + 1) selected
    else
      match m.get_geometry with
      | none => none
      | some g =>
        (snapTargetsAuxH rest (i + 1) selected).map
          (fun acc => [g.1, g.1 + g.2.2.1, g.1 + g.2.2.1 / 2] ++ acc)

/-- Map::snap_horizontal target list. -/
def snapTargetsH (monitors : List Monitor) (selected : Nat) : Option (List ℚ) :=
  (snapTargetsAuxH monitors 0 selected).map (fun l => (0 : ℚ) :: l)

/-- Map::snap_horizontal source list: x, x plus width and x plus half width of
the selected monitor. -/
def snapSourcesH (monitors : List Monitor) (selected : Nat) : Option (List ℚ) :=
  match monitors[selected]? with
  | none => none
  | some m =>
    match m.get_geometry with
    | none => none
    | some g => some [g.1, g.1 + g.2.2.1, g.1 + g.2.2.1 / 2]

/-- src/map.rs, Map::snap_horizontal. -/
def Map.snap_horizontal (monitors : List Monitor) (selected : Nat) (direction : Int) :
    Option (List Monitor) :=
  match snapTargetsH monitors selected, snapSourcesH monitors selected,
        monitors[selected]? with
  | some targets, some sources, some m =>
    match bestDelta sources targets direction with
    | none => some monitors
    | some delta =>
      some (monitors.set selected (m.move_horizontal (rustRound delta)))
  | _, _, _ => none

/-- The invariant of the best-candidate loop: over the diffs seen so far the
accumulator is none exactly when no diff was valid, and otherwise holds a
valid seen diff of minimal absolute value. -/
def IsBest (direction : Int) (seen : List ℚ) : Option ℚ → Prop
  | none => ∀ q ∈ seen, validDir direction q = false
  | some d => d ∈ seen ∧ validDir direction d = true ∧
      ∀ q ∈ seen, validDir direction q = true → |d| ≤ |q|

/-- One loop step preserves the best-candidate invariant. -/
theorem isBest_step (direction : Int) (seen : List ℚ) (acc : Option ℚ) (q : ℚ)
    (h : IsBest direction seen acc) :
    IsBest direction (seen ++ [q]) (betterDelta direction acc q) := by
  unfold betterDelta
  by_cases hv : validDir direction q = true
  · rw [if_pos hv]
    cases acc with
    | none =>
      simp only [IsBest] at h ⊢
      refine ⟨by simp, hv, ?_⟩
      intro p hp hvp
      rcases List.mem_append.mp hp with hp | hp
      · exact absurd hvp (by simp [h p hp])
      · rw [List.mem_singleton.mp hp]
    | some c =>
      simp only [IsBest] at h ⊢
      obtain ⟨hc, hvc, hmin⟩ := h
      by_cases habs : |q| < |c|
      · rw [if_pos habs]
        refine ⟨by simp, hv, ?_⟩
        intro p hp hvp
        rcases List.mem_append.mp hp with hp | hp
        · exact le_trans (le_of_lt habs) (hmin p hp hvp)
        · rw [List.mem_singleton.mp hp]
      · rw [if_neg habs]
        refine ⟨List.mem_append_left _ hc, hvc, ?_⟩
        intro p hp hvp
        rcases List.mem_append.mp hp with hp | hp
        · exact hmin p hp hvp
        · rw [List.mem_singleton.mp hp]
          exact le_of_not_lt habs
  · rw [if_neg hv]
    cases acc with
    | none =>
      simp only [IsBest] at h ⊢
      intro p hp
      rcases List.mem_append.mp hp with hp | hp
      · exact h p hp
      · rw [List.mem_singleton.mp hp]
        exact Bool.eq_false_iff.mpr hv
    | some c =>
      simp only [IsBest] at h ⊢
      obtain ⟨hc, hvc, hmin⟩ := h
      refine ⟨List.mem_append_left _ hc, hvc, ?_⟩
      intro p hp hvp
      rcases List.mem_append.mp hp with hp | hp
      · exact hmin p hp hvp
      · rw [List.mem_singleton.mp hp] at hvp
        exact absurd hvp hv

/-- Folding the loop step over any list extends the invariant. -/
theorem isBest_foldl (direction : Int) :
    ∀ (L seen : List ℚ) (acc : Option ℚ), IsBest direction seen acc →
      IsBest direction (seen ++ L) (L.foldl (betterDelta direction) acc)
  | [], seen, acc, h => by simpa using h
  | q :: L, seen, acc, h => by
    have h2 := isBest_foldl direction L (seen ++ [q]) _ (isBest_step direction seen acc q h)
    rw [List.foldl_cons]
    simpa [List.append_assoc] using h2

/-- The source-major double loop equals the single fold over the flattened
diff list. -/
theorem bestDelta_eq_foldl (targets : List ℚ) (direction : Int) :
    ∀ (sources : List ℚ) (acc : Option ℚ),
      sources.foldl
        (fun a s => targets.foldl (fun a t => betterDelta direction a (t - s)) a) acc =
      (sources.flatMap (fun s => targets.map (fun t => t - s))).foldl
        (betterDelta direction) acc
  | [], acc => by simp
  | s :: sources, acc => by
    rw [List.foldl_cons, List.flatMap_cons, List.foldl_append, List.foldl_map]
    exact bestDelta_eq_foldl targets direction sources _

/-- The computed best delta satisfies the best-candidate invariant over all
candidate diffs. -/
theorem bestDelta_isBest (sources targets : List ℚ) (direction : Int) :
    IsBest direction (snapDiffs sources targets)
      (bestDelta sources targets direction) := by
  have h := isBest_foldl direction (snapDiffs sources targets) [] none
    (by intro q hq; simp at hq)
  unfold bestDelta snapDiffs
  rw [bestDelta_eq_foldl]
  simpa [snapDiffs] using h

/-- Claim C1: for every configuration, axis and direction, the snap operation
selects, among all source and target pairs whose diff passes the direction
filter (below -0.1 for direction -1, above 0.1 for direction +1), a candidate
of smallest absolute value, applies it rounded to the nearest integer to the
selected monitor, and moves nothing when no pair is valid. -/
theorem snap_returns_min_displacement :
    (∀ (monitors : List Monitor) (selected : Nat) (direction : Int)
       (m : Monitor) (sources targets : List ℚ),
      monitors[selected]? = some m →
      snapSourcesV monitors selected = some sources →
      snapTargetsV monitors selected = some targets →
      ((∀ d, bestDelta sources targets direction = some d →
          validDir direction d = true ∧
          (∃ s ∈ sources, ∃ t ∈ targets, t - s = d) ∧
          (∀ s ∈ sources, ∀ t ∈ targets,
             validDir direction (t - s) = true → |d| ≤ |t - s|) ∧
          Map.snap_vertical monitors selected direction =
            some (monitors.set selected (m.move_vertical (rustRound d)))) ∧
       (bestDelta sources targets direction = none →
          Map.snap_vertical monitors selected direction = some monitors))) ∧
    (∀ (monitors : List Monitor) (selected : Nat) (direction : Int)
       (m : Monitor) (sources targets : List ℚ),
      monitors[selected]? = some m →
      snapSourcesH monitors selected = some sources →
      snapTargetsH monitors selected = some targets →
      ((∀ d, bestDelta sources targets direction = some d →
          validDir direction d = true ∧
          (∃ s ∈ sources, ∃ t ∈ targets, t - s = d) ∧
          (∀ s ∈ sources, ∀ t ∈ targets,
             validDir direction (t - s) = true → |d| ≤ |t - s|) ∧
          Map.snap_horizontal monitors selected direction =
            some (monitors.set selected (m.move_horizontal (rustRound d)))) ∧
       (bestDelta sources targets direction = none →
          Map.snap_horizontal monitors selected direction = some monitors))) := by
  constructor
  · intro monitors selected direction m sources targets hm hs ht
    constructor
    · intro d hd
      have hb := bestDelta_isBest sources targets direction
      rw [hd] at hb
      obtain ⟨hmem, hv, hmin⟩ := hb
      refine ⟨hv, ?_, ?_, ?_⟩
      · obtain ⟨s, hs2, hmap⟩ := List.mem_flatMap.mp hmem
        obtain ⟨t, ht2, hts⟩ := List.mem_map.mp hmap
        exact ⟨s, hs2, t, ht2, hts⟩
      · intro s hs2 t ht2 hvd
        exact hmin _ (List.mem_flatMap.mpr ⟨s, hs2, List.mem_map.mpr ⟨t, ht2, rfl⟩⟩) hvd
      · unfold Map.snap_vertical
        rw [ht, hs, hm]
        simp only [hd]
    · intro hnone
      unfold Map.snap_vertical
      rw [ht, hs, hm]
      simp only [hnone]
  · intro monitors selected direction m sources targets hm hs ht
    constructor
    · intro d hd
      have hb := bestDelta_isBest sources targets direction
      rw [hd] at hb
      obtain ⟨hmem, hv, hmin⟩ := hb
      refine ⟨hv, ?_, ?_, ?_⟩
      · obtain ⟨s, hs2, hmap⟩ := List.mem_flatMap.mp hmem
        obtain ⟨t, ht2, hts⟩ := List.mem_map.mp hmap
        exact ⟨s, hs2, t, ht2, hts⟩
      · intro s hs2 t ht2 hvd
        exact hmin _ (List.mem_flatMap.mpr ⟨s, hs2, List.mem_map.mpr ⟨t, ht2, rfl⟩⟩) hvd
      · unfold Map.snap_horizontal
        rw [ht, hs, hm]
        simp only [hd]
    · intro hnone
      unfold Map.snap_horizontal
      rw [ht, hs, hm]
      simp only [hnone]

/-- A single enabled monitor placed at y = 100 used to witness the snap. -/
def mW : Monitor :=
  { name := "A", description := none, enabled := true,
    modes := [{ width := 100, height := 100, refresh := 60,
                preferred := false, current := true }],
    position := some { x := 0, y := 100 }, scale := some 1, transform := none }

/-- The one-monitor configuration of the snap witness. -/
def cfgW : List Monitor := [mW]

/-- Witness for C1: the single monitor at y = 100 snapping up has only the
origin as target; the best delta is -100 and the snap applies it. -/
theorem snap_returns_min_displacement_witness :
    cfgW[0]? = some mW ∧
    snapSourcesV cfgW 0 = some [100, 200, 150] ∧
    snapTargetsV cfgW 0 = some [0] ∧
    bestDelta [100, 200, 150] [0] (-1) = some (-100) ∧
    Map.snap_vertical cfgW 0 (-1) =
      some (cfgW.set 0 (mW.move_vertical (rustRound (-100)))) := by
  have hm : cfgW[0]? = some mW := rfl
  have hS : snapSourcesV cfgW 0 = some [100, 200, 150] := by
    norm_num [snapSourcesV, cfgW, mW, Monitor.get_geometry, Monitor.resolve_mode,
      Monitor.get_current_resolution, Rotation.from_transform, List.find?]
  have hT : snapTargetsV cfgW 0 = some [0] := by
    norm_num [snapTargetsV, snapTargetsAuxV, cfgW]
  have hB : bestDelta [100, 200, 150] [0] (-1) = some (-100) := by
    norm_num [bestDelta, betterDelta, validDir, List.foldl, abs_of_neg, abs_of_nonneg]
  exact ⟨hm, hS, hT, hB,
    ((snap_returns_min_displacement.1 cfgW 0 (-1) mW [100, 200, 150] [0] hm hS hT).1
      (-100) hB).2.2.2⟩

/-- Moving a monitor vertically shifts only the y coordinate of its geometry,
provided a mode resolves (with no mode the geometry is pinned at zero and
ignores the position). -/
theorem get_geometry_move_vertical (m : Monitor) (md : Resolution)
    (g : ℚ × ℚ × ℚ × ℚ) (r : Int)
    (hmode : m.resolve_mode = some md) (h : m.get_geometry = some g) :
    (m.move_vertical r).get_geometry =
      some (g.1, g.2.1 + (r : ℚ), g.2.2.1, g.2.2.2) := by
  cases hp : m.position with
  | none =>
    simp only [Monitor.get_geometry, hmode, hp] at h
    exact absurd h (by simp)
  | some p =>
    simp only [Monitor.get_geometry, hmode, hp, Option.some.injEq] at h
    subst h
    have hmode2 : Monitor.resolve_mode
        { m with position := some { p with y := p.y + r } } = some md := hmode
    simp only [Monitor.move_vertical, hp, Monitor.get_geometry, hmode2]
    push_cast
    rfl

/-- Moving a monitor horizontally shifts only the x coordinate of its
geometry, provided a mode resolves. -/
theorem get_geometry_move_horizontal (m : Monitor) (md : Resolution)
    (g : ℚ × ℚ × ℚ × ℚ) (r : Int)
    (hmode : m.resolve_mode = some md) (h : m.get_geometry = some g) :
    (m.move_horizontal r).get_geometry =
      some (g.1 + (r : ℚ), g.2.1, g.2.2.1, g.2.2.2) := by
  cases hp : m.position with
  | none =>
    simp only [Monitor.get_geometry, hmode, hp] at h
    exact absurd h (by simp)
  | some p =>
    simp only [Monitor.get_geometry, hmode, hp, Option.some.injEq] at h
    subst h
    have hmode2 : Monitor.resolve_mode
        { m with position := some { p with x := p.x + r } } = some md := hmode
    simp only [Monitor.move_horizontal, hp, Monitor.get_geometry, hmode2]
    push_cast
    rfl

/-- Replacing precisely the selected monitor leaves the vertical target
accumulation unchanged, because the loop skips the selected index. -/
theorem snapTargetsAuxV_set (x : Monitor) :
    ∀ (l : List Monitor) (i k : Nat),
      snapTargetsAuxV (l.set k x) i (i + k) = snapTargetsAuxV l i (i + k)
  | [], _, _ => rfl
  | m :: rest, i, 0 => by
    simp only [List.set_cons_zero, Nat.add_zero]
    unfold snapTargetsAuxV
    rw [if_pos (Or.inl rfl), if_pos (Or.inl rfl)]
  | m :: rest, i, (k + 1) => by
    simp only [List.set_cons_succ]
    have e : i + (k + 1) = (i + 1) + k := by omega
    rw [e]
    unfold snapTargetsAuxV
    rw [snapTargetsAuxV_set x rest (i + 1) k]

/-- Replacing precisely the selected monitor leaves the horizontal target
accumulation unchanged. -/
theorem snapTargetsAuxH_set (x : Monitor) :
    ∀ (l : List Monitor) (i k : Nat),
      snapTargetsAuxH (l.set k x) i (i + k) = snapTargetsAuxH l i (i + k)
  | [], _, _ => rfl
  | m :: rest, i, 0 => by
    simp only [List.set_cons_zero, Nat.add_zero]
    unfold snapTargetsAuxH
    rw [if_pos (Or.inl rfl), if_pos (Or.inl rfl)]
  | m :: rest, i, (k + 1) => by
    simp only [List.set_cons_succ]
    have e : i + (k + 1) = (i + 1) + k := by omega
    rw [e]
    unfold snapTargetsAuxH
    rw [snapTargetsAuxH_set x rest (i + 1) k]

/-- The vertical snap targets do not change when the selected monitor is
replaced. -/
theorem snapTargetsV_set (monitors : List Monitor) (selected : Nat) (x : Monitor) :
    snapTargetsV (monitors.set selected x) selected =
      snapTargetsV monitors selected := by
  unfold snapTargetsV
  have h := snapTargetsAuxV_set x monitors 0 selected
  rw [Nat.zero_add] at h
  rw [h]

/-- The horizontal snap targets do not change when the selected monitor is
replaced. -/
theorem snapTargetsH_set (monitors : List Monitor) (selected : Nat) (x : Monitor) :
    snapTargetsH (monitors.set selected x) selected =
      snapTargetsH monitors selected := by
  unfold snapTargetsH
  have h := snapTargetsAuxH_set x monitors 0 selected
  rw [Nat.zero_add] at h
  rw [h]

/-- For a nonnegative argument the rounding residual stays strictly below one
half. -/
theorem rustRound_residual_lt (d : ℚ) (h : 0 ≤ d) :
    d - (rustRound d : ℚ) < 1/2 := by
  unfold rustRound
  rw [if_neg (not_lt.mpr h), round_eq]
  have h1 := Int.lt_floor_add_one (d + 1/2)
  push_cast at h1 ⊢
  linarith

/-- For a negative argument the rounding residual stays strictly above minus
one half. -/
theorem rustRound_residual_gt (d : ℚ) (h : d < 0) :
    -(1/2) < d - (rustRound d : ℚ) := by
  unfold rustRound
  rw [if_pos h, round_eq]
  have h1 := Int.lt_floor_add_one (-d + 1/2)
  push_cast at h1 ⊢
  linarith

/-- Rust rounding sends everything strictly between minus one half and one
half to zero. -/
theorem rustRound_zero_small (x : ℚ) (h1 : -(1/2) < x) (h2 : x < 1/2) :
    rustRound x = 0 := by
  unfold rustRound
  by_cases hx : x < 0
  · rw [if_pos hx, round_eq, neg_eq_zero, Int.floor_eq_zero_iff]
    simp only [Set.mem_Ico]
    constructor <;> linarith
  · rw [if_neg hx, round_eq, Int.floor_eq_zero_iff]
    simp only [Set.mem_Ico]
    constructor <;> linarith

/-- After applying a rounded valid delta, the residual toward the same pair
either fails the direction filter or rounds to a zero step. -/
theorem residual_no_further_move (direction : Int) (d : ℚ)
    (h : validDir direction d = true) :
    validDir direction (d - (rustRound d : ℚ)) = false ∨
    rustRound (d - (rustRound d : ℚ)) = 0 := by
  have hd' := h
  unfold validDir at hd'
  simp only [Bool.or_eq_true, Bool.and_eq_true, decide_eq_true_eq] at hd'
  rcases hd' with ⟨hdir, hlt⟩ | ⟨hdir, hgt⟩
  · have hneg : d < 0 := by linarith
    have hgt2 := rustRound_residual_gt d hneg
    by_cases hv : d - (rustRound d : ℚ) < -(1/10)
    · right
      exact rustRound_zero_small _ hgt2 (by linarith)
    · left
      have h2 : ¬ (0 < direction) := by omega
      push_neg at hv
      simp only [validDir, h2, decide_eq_false, Bool.and_false, Bool.or_false]
      simp
      intro _
      linarith
  · have hpos : (0 : ℚ) ≤ d := by linarith
    have hlt2 := rustRound_residual_lt d hpos
    by_cases hv : (1/10 : ℚ) < d - (rustRound d : ℚ)
    · right
      exact rustRound_zero_small _ (by linarith) hlt2
    · left
      have h2 : ¬ (direction < 0) := by omega
      push_neg at hv
      simp only [validDir, h2, decide_eq_false, Bool.false_and, Bool.false_or]
      simp
      intro _
      linarith

/-- Claim C7 as amended: after a successful snap (best delta d, applied as
round(d)), the sources shift by exactly round(d) while the targets are
unchanged, so the pair that produced d now produces the residual d - round(d);
that residual either fails the direction filter or rounds to a zero step, so
snapping again never moves the monitor further toward that same target.  The
residual is however not always within the 0.1 tolerance, so it is not always
filtered out as the original claim states. -/
theorem snap_idempotent_same_target :
    (∀ (monitors : List Monitor) (selected : Nat) (direction : Int)
       (m : Monitor) (md : Resolution) (sources targets : List ℚ) (d : ℚ),
      monitors[selected]? = some m →
      m.resolve_mode = some md →
      snapSourcesV monitors selected = some sources →
      snapTargetsV monitors selected = some targets →
      bestDelta sources targets direction = some d →
      (Map.snap_vertical monitors selected direction =
         some (monitors.set selected (m.move_vertical (rustRound d))) ∧
       snapSourcesV (monitors.set selected (m.move_vertical (rustRound d))) selected =
         some (sources.map (fun s => s + (rustRound d : ℚ))) ∧
       snapTargetsV (monitors.set selected (m.move_vertical (rustRound d))) selected =
         some targets ∧
       (∀ s ∈ sources, ∀ t ∈ targets, t - s = d →
          t - (s + (rustRound d : ℚ)) = d - (rustRound d : ℚ) ∧
          (validDir direction (d - (rustRound d : ℚ)) = false ∨
           rustRound (d - (rustRound d : ℚ)) = 0)))) ∧
    (∀ (monitors : List Monitor) (selected : Nat) (direction : Int)
       (m : Monitor) (md : Resolution) (sources targets : List ℚ) (d : ℚ),
      monitors[selected]? = some m →
      m.resolve_mode = some md →
      snapSourcesH monitors selected = some sources →
      snapTargetsH monitors selected = some targets →
      bestDelta sources targets direction = some d →
      (Map.snap_horizontal monitors selected direction =
         some (monitors.set selected (m.move_horizontal (rustRound d))) ∧
       snapSourcesH (monitors.set selected (m.move_horizontal (rustRound d))) selected =
         some (sources.map (fun s => s + (rustRound d : ℚ))) ∧
       snapTargetsH (monitors.set selected (m.move_horizontal (rustRound d))) selected =
         some targets ∧
       (∀ s ∈ sources, ∀ t ∈ targets, t - s = d →
          t - (s + (rustRound d : ℚ)) = d - (rustRound d : ℚ) ∧
          (validDir direction (d - (rustRound d : ℚ)) = false ∨
           rustRound (d - (rustRound d : ℚ)) = 0)))) := by
  constructor
  · intro monitors selected direction m md sources targets d hm hmode hs ht hd
    have hlt : selected < monitors.length := by
      rcases Nat.lt_or_ge selected monitors.length with h | h
      · exact h
      · rw [List.getElem?_eq_none h] at hm
        cases hm
    obtain ⟨g, hgg, hsrc⟩ : ∃ g, m.get_geometry = some g ∧
        sources = [g.2.1, g.2.1 + g.2.2.2, g.2.1 + g.2.2.2 / 2] := by
      unfold snapSourcesV at hs
      simp only [hm] at hs
      cases hgg : m.get_geometry with
      | none =>
        rw [hgg] at hs
        exact absurd hs (by simp)
      | some g =>
        rw [hgg] at hs
        simp only [Option.some.injEq] at hs
        exact ⟨g, rfl, hs.symm⟩
    have hset : (monitors.set selected (m.move_vertical (rustRound d)))[selected]? =
        some (m.move_vertical (rustRound d)) :=
      List.getElem?_set_self (by simpa using hlt)
    have hgeom2 := get_geometry_move_vertical m md g (rustRound d) hmode hgg
    have hsrc2 : snapSourcesV
        (monitors.set selected (m.move_vertical (rustRound d))) selected =
        some (sources.map (fun s => s + (rustRound d : ℚ))) := by
      unfold snapSourcesV
      rw [hset]
      simp only [hgeom2, hsrc, List.map_cons, List.map_nil, Option.some.injEq,
        List.cons.injEq, and_true]
      and_intros <;> ring_nf
    have htar2 : snapTargetsV
        (monitors.set selected (m.move_vertical (rustRound d))) selected =
        some targets := by
      rw [snapTargetsV_set]
      exact ht
    have hsnap : Map.snap_vertical monitors selected direction =
        some (monitors.set selected (m.move_vertical (rustRound d))) := by
      unfold Map.snap_vertical
      rw [ht, hs, hm]
      simp only [hd]
    refine ⟨hsnap, hsrc2, htar2, ?_⟩
    intro s hs3 t ht3 hts
    have hres : t - (s + (rustRound d : ℚ)) = d - (rustRound d : ℚ) := by
      rw [← hts]; ring
    have hb := bestDelta_isBest sources targets direction
    rw [hd] at hb
    exact ⟨hres, residual_no_further_move direction d hb.2.1⟩
  · intro monitors selected direction m md sources targets d hm hmode hs ht hd
    have hlt : selected < monitors.length := by
      rcases Nat.lt_or_ge selected monitors.length with h | h
      · exact h
      · rw [List.getElem?_eq_none h] at hm
        cases hm
    obtain ⟨g, hgg, hsrc⟩ : ∃ g, m.get_geometry = some g ∧
        sources = [g.1, g.1 + g.2.2.1, g.1 + g.2.2.1 / 2] := by
      unfold snapSourcesH at hs
      simp only [hm] at hs
      cases hgg : m.get_geometry with
      | none =>
        rw [hgg] at hs
        exact absurd hs (by simp)
      | some g =>
        rw [hgg] at hs
        simp only [Option.some.injEq] at hs
        exact ⟨g, rfl, hs.symm⟩
    have hset : (monitors.set selected (m.move_horizontal (rustRound d)))[selected]? =
        some (m.move_horizontal (rustRound d)) :=
      List.getElem?_set_self (by simpa using hlt)
    have hgeom2 := get_geometry_move_horizontal m md g (rustRound d) hmode hgg
    have hsrc2 : snapSourcesH
        (monitors.set selected (m.move_horizontal (rustRound d))) selected =
        some (sources.map (fun s => s + (rustRound d : ℚ))) := by
      unfold snapSourcesH
      rw [hset]
      simp only [hgeom2, hsrc, List.map_cons, List.map_nil, Option.some.injEq,
        List.cons.injEq, and_true]
      and_intros <;> ring_nf
    have htar2 : snapTargetsH
        (monitors.set selected (m.move_horizontal (rustRound d))) selected =
        some targets := by
      rw [snapTargetsH_set]
      exact ht
    have hsnap : Map.snap_horizontal monitors selected direction =
        some (monitors.set selected (m.move_horizontal (rustRound d))) := by
      unfold Map.snap_horizontal
      rw [ht, hs, hm]
      simp only [hd]
    refine ⟨hsnap, hsrc2, htar2, ?_⟩
    intro s hs3 t ht3 hts
    have hres : t - (s + (rustRound d : ℚ)) = d - (rustRound d : ℚ) := by
      rw [← hts]; ring
    have hb := bestDelta_isBest sources targets direction
    rw [hd] at hb
    exact ⟨hres, residual_no_further_move direction d hb.2.1⟩

/-- The display mode of the selected monitor in the idempotence example. -/
def mdS : Resolution :=
  { width := 100, height := 100, refresh := 60, preferred := false, current := true }

/-- The selected monitor of the idempotence example, at y = 100. -/
def mS : Monitor :=
  { name := "S", description := none, enabled := true, modes := [mdS],
    position := some { x := 0, y := 100 }, scale := some 1, transform := none }

/-- The other monitor of the idempotence example: physical height 101 at
scale 5/4, so logical height 404/5 = 80.8 and centre 202/5 = 40.4. -/
def mE : Monitor :=
  { name := "E", description := none, enabled := true,
    modes := [{ width := 100, height := 101, refresh := 60,
                preferred := false, current := true }],
    position := some { x := 0, y := 0 }, scale := some (5/4), transform := none }

/-- The idempotence example configuration. -/
def cfg2 : List Monitor := [mS, mE]

/-- The selected monitor after the first snap, at y = 81. -/
def mS2 : Monitor := { mS with position := some { x := 0, y := 81 } }

/-- The configuration after the first snap. -/
def cfg2b : List Monitor := [mS2, mE]

/-- Concrete evaluation: snap sources of the example before the snap. -/
theorem cfg2_sources : snapSourcesV cfg2 0 = some [100, 200, 150] := by
  norm_num [snapSourcesV, cfg2, mS, mdS, Monitor.get_geometry, Monitor.resolve_mode,
    Monitor.get_current_resolution, Rotation.from_transform, List.find?]

/-- Concrete evaluation: snap targets of the example before the snap. -/
theorem cfg2_targets : snapTargetsV cfg2 0 = some [0, 0, 404/5, 202/5] := by
  norm_num [snapTargetsV, snapTargetsAuxV, cfg2, mS, mE, mdS, Monitor.get_geometry,
    Monitor.resolve_mode, Monitor.get_current_resolution, Rotation.from_transform,
    List.find?]
  rw [if_neg (by decide)]
  norm_num

/-- Concrete evaluation: the first best delta of the example is -96/5. -/
theorem cfg2_best :
    bestDelta [100, 200, 150] [0, 0, 404/5, 202/5] (-1) = some (-(96/5)) := by
  norm_num [bestDelta, betterDelta, validDir, List.foldl, abs_of_neg, abs_of_nonneg]

/-- Concrete evaluation: -96/5 = -19.2 rounds (away from zero) to -19. -/
theorem rustRound_neg965 : rustRound (-(96/5) : ℚ) = -19 := by
  unfold rustRound
  rw [if_pos (by norm_num), round_eq]
  have hf : Int.floor ((96/5 : ℚ) + 1/2) = 19 := by
    rw [Int.floor_eq_iff]
    constructor <;> norm_num
  simp only [neg_neg]
  rw [hf]

/-- Concrete evaluation: the first snap moves the selected monitor to y = 81. -/
theorem cfg2_snap_first : Map.snap_vertical cfg2 0 (-1) = some cfg2b := by
  have hm : cfg2[0]? = some mS := rfl
  unfold Map.snap_vertical
  rw [cfg2_targets, cfg2_sources, hm]
  simp only [cfg2_best, rustRound_neg965]
  norm_num [cfg2, cfg2b, mS, mS2, Monitor.move_vertical, List.set]

/-- Concrete evaluation: snap sources after the first snap. -/
theorem cfg2b_sources : snapSourcesV cfg2b 0 = some [81, 181, 131] := by
  norm_num [snapSourcesV, cfg2b, mS2, mS, mdS, Monitor.get_geometry,
    Monitor.resolve_mode, Monitor.get_current_resolution, Rotation.from_transform,
    List.find?]

/-- Concrete evaluation: snap targets after the first snap are unchanged. -/
theorem cfg2b_targets : snapTargetsV cfg2b 0 = some [0, 0, 404/5, 202/5] := by
  norm_num [snapTargetsV, snapTargetsAuxV, cfg2b, mS2, mS, mE, mdS,
    Monitor.get_geometry, Monitor.resolve_mode, Monitor.get_current_resolution,
    Rotation.from_transform, List.find?]
  rw [if_neg (by decide)]
  norm_num

/-- Concrete evaluation: the second best delta is the residual -1/5 toward
the very target just snapped to. -/
theorem cfg2b_best :
    bestDelta [81, 181, 131] [0, 0, 404/5, 202/5] (-1) = some (-(1/5)) := by
  norm_num [bestDelta, betterDelta, validDir, List.foldl, abs_of_neg, abs_of_nonneg]

/-- Counterexample for claim C7: in the concrete configuration cfg2 the first
snap succeeds (delta -96/5, applied as -19), after which the remaining
distance to the same target is -1/5.  That residual passes the direction
filter (it is not filtered out by the 0.1 tolerance, contrary to the claim)
and is selected again as best delta; the position still does not move, but
only because -1/5 rounds to a zero step. -/
theorem snap_idem_cex :
    Map.snap_vertical cfg2 0 (-1) = some cfg2b ∧
    snapSourcesV cfg2b 0 = some [81, 181, 131] ∧
    snapTargetsV cfg2b 0 = some [0, 0, 404/5, 202/5] ∧
    bestDelta [81, 181, 131] [0, 0, 404/5, 202/5] (-1) = some (-(1/5)) ∧
    validDir (-1) (-(1/5)) = true ∧
    ¬ (|(-(1/5) : ℚ)| ≤ 1/10) ∧
    rustRound (-(1/5)) = 0 ∧
    Map.snap_vertical cfg2b 0 (-1) = some cfg2b := by
  have hround0 : rustRound (-(1/5) : ℚ) = 0 :=
    rustRound_zero_small _ (by norm_num) (by norm_num)
  refine ⟨cfg2_snap_first, cfg2b_sources, cfg2b_targets, cfg2b_best, ?_, ?_, hround0, ?_⟩
  · norm_num [validDir]
  · norm_num [abs_of_neg]
  · have hm : cfg2b[0]? = some mS2 := rfl
    unfold Map.snap_vertical
    rw [cfg2b_targets, cfg2b_sources, hm]
    simp only [cfg2b_best, hround0]
    norm_num [cfg2b, mS2, mS, Monitor.move_vertical, List.set]

/-- Witness for the amended C7 at the concrete configuration cfg2. -/
theorem snap_idempotent_same_target_witness :
    cfg2[0]? = some mS ∧
    mS.resolve_mode = some mdS ∧
    snapSourcesV cfg2 0 = some [100, 200, 150] ∧
    snapTargetsV cfg2 0 = some [0, 0, 404/5, 202/5] ∧
    bestDelta [100, 200, 150] [0, 0, 404/5, 202/5] (-1) = some (-(96/5)) ∧
    snapSourcesV (cfg2.set 0 (mS.move_vertical (rustRound (-(96/5))))) 0 =
      some ([100, 200, 150].map (fun s => s + ((rustRound (-(96/5) : ℚ) : Int) : ℚ))) := by
  refine ⟨rfl, rfl, cfg2_sources, cfg2_targets, cfg2_best, ?_⟩
  exact (snap_idempotent_same_target.1 cfg2 0 (-1) mS mdS [100, 200, 150]
    [0, 0, 404/5, 202/5] (-(96/5)) rfl rfl cfg2_sources cfg2_targets cfg2_best).2.1
